import Mathlib

/-!
Shallow embedding of `src/lib/projectionSearchFilter.ts`: the commercetools
product projection filter expression engine (tokenizer, Pratt-style predicate
compiler, path resolver and the four family filter dispatchers), together with
theorems checking the natural-language specification against it.

JavaScript values flowing through the filters are modelled by `JsVal`;
the compiler's intermediate results (literal / list / predicate) by
`FilterVal`.  Thrown exceptions are modelled with `Except`: compile-time
throws by `CompileErr`, evaluation-time throws by `RErr`.
-/

namespace ProjectionSearchFilter

/-- JavaScript values reachable in this module: `undefined`, strings,
integral numbers, plain objects (assoc lists) and arrays.  Fractional
numbers, booleans and `null` never arise on the paths the filters touch. -/
inductive JsVal where
  | undefined
  | str (s : String)
  | int (n : Int)
  | obj (fields : List (String × JsVal))
  | arr (elems : List JsVal)

/-- Intermediate result of the Pratt compiler: a literal, a list, a predicate
function, or `undefined` (which only appears through `range` destructuring). -/
inductive FilterVal where
  | undefined
  | str (s : String)
  | int (n : Int)
  | list (elems : List FilterVal)
  | fn (f : JsVal → Bool)

/-- Evaluation-time exceptions: `TypeError`s thrown by the JS runtime and the
explicit `Error` thrown by `filterScopedPrice` for unsupported sub-paths. -/
inductive RErr where
  | typeError
  | unsupported (msg : String)
deriving DecidableEq

/-- Strict equality `obj === lit` between a resolved JS value and a compiled
literal.  Objects, arrays and functions compare by reference in JS, so they
are never `===` to a value resolved out of a product. -/
def jsEqLit : JsVal → FilterVal → Bool
  | .str s, .str t => s == t
  | .int n, .int m => n == m
  | .undefined, .undefined => true
  | _, _ => false

/-- `val === undefined`. -/
def isUndefined : JsVal → Bool
  | .undefined => true
  | _ => false

/-- JS `obj >= bound` restricted to the shapes this module produces:
number/number compares numerically, string/string lexicographically;
any other combination (`undefined`, mixed, lists, functions) is `false`
(`NaN` comparisons). -/
def jsGe : JsVal → FilterVal → Bool
  | .int n, .int m => decide (m ≤ n)
  | .str s, .str t => decide (t ≤ s)
  | _, _ => false

/-- JS `obj <= bound`, same fragment as `jsGe`. -/
def jsLe : JsVal → FilterVal → Bool
  | .int n, .int m => decide (n ≤ m)
  | .str s, .str t => decide (s ≤ t)
  | _, _ => false

/-- `isLeadOf p s` : the char list `p` is an initial segment of `s`
(JS `String.prototype.startsWith`). -/
def isLeadOf : List Char → List Char → Bool
  | [], _ => true
  | _ :: _, [] => false
  | a :: as, b :: bs => a == b && isLeadOf as bs

/-- JS `s.startsWith(p)`. -/
def jsStartsWith (s p : String) : Bool :=
  isLeadOf p.data s.data

/-- JS `String.prototype.split(sep)` on char lists (no limit; the limits 2 and
4 used in the source only truncate past the indices ever read, so reading
index 1 resp. 2,3 of the full split is faithful). -/
def jsSplit (sep : Char) : List Char → List (List Char)
  | [] => [[]]
  | c :: rest =>
    match jsSplit sep rest with
    | h :: t => if c = sep then [] :: h :: t else (c :: h) :: t
    | [] => if c = sep then [[], []] else [[c]]

/-! ## Tokenizer

Embedding of `getLexer`: a `perplex` lexer with token patterns tried in
registration order at each position (first match wins), whitespace skipped.
Keyword patterns carry the negative lookahead `(?![-_a-z0-9]+)`; the
`IDENTIFIER` pattern is `/[-_\.a-z]+/i` (letters, `-`, `_`, `.` — digits are
not in the class). -/

/-- Token kinds emitted by `getLexer`.  Payloads carry the matched text
(`ident`, `float`, `intTok`) or the raw captured group (`strTok`). -/
inductive Tok where
  | missingTok
  | existsTok
  | rangeTok
  | toTok
  | ident (s : String)
  | float (s : String)
  | intTok (s : String)
  | strTok (inner : String)
  | comma
  | lparen
  | colon
  | rparen
  | dquote
deriving DecidableEq

/-- Characters of the `IDENTIFIER` class `[-_\.a-z]` with the `i` flag. -/
def isIdentChar (c : Char) : Bool :=
  c == '-' || c == '_' || c == '.' || c.isAlpha

/-- Characters of the keyword lookahead class `[-_a-z0-9]` with the `i` flag
(note: digits are here, but not in the `IDENTIFIER` class). -/
def isGuardChar (c : Char) : Bool :=
  c == '-' || c == '_' || c.isAlpha || c.isDigit

/-- Case-insensitively strip the keyword `kw` (given lowercase) from the
front of the input, returning the rest. -/
def dropKw : List Char → List Char → Option (List Char)
  | [], rest => some rest
  | _ :: _, [] => none
  | k :: ks, c :: cs => if c.toLower == k then dropKw ks cs else none

/-- Match a keyword with its negative lookahead `(?![-_a-z0-9]+)`:
the keyword must not be followed by a guard-class character. -/
def matchKw (kw : List Char) (cs : List Char) : Option (List Char) :=
  match dropKw kw cs with
  | none => none
  | some [] => some []
  | some (c :: rest) => if isGuardChar c then none else some (c :: rest)

/-- Scan the body of a quoted string after the opening quote `q`, per the
pattern `(?:\\.|[^q\\])*q`.  Returns the raw captured group (escape
sequences kept verbatim, as the source reads `token.groups[1]` unescaped)
and the input after the closing quote; `none` if the pattern cannot match. -/
def scanStr (q : Char) : List Char → Option (List Char × List Char)
  | [] => none
  | c :: cs =>
    if c == q then some ([], cs)
    else if c == '\\' then
      match cs with
      | [] => none
      | e :: cs' =>
        if e == '\n' then none
        else
          match scanStr q cs' with
          | none => none
          | some (inner, rest) => some ('\\' :: e :: inner, rest)
    else
      match scanStr q cs with
      | none => none
      | some (inner, rest) => some (c :: inner, rest)

/-- One lexing step: try every token pattern in registration order at the
current position.  Returns the emitted token (`none` for skipped whitespace)
and the remaining input, or `none` overall if no pattern matches
(perplex raises a tokenization error there). -/
def nextTok (cs : List Char) : Option (Option Tok × List Char) :=
  match matchKw ['m','i','s','s','i','n','g'] cs with
  | some r => some (some .missingTok, r)
  | none =>
  match matchKw ['e','x','i','s','t','s'] cs with
  | some r => some (some .existsTok, r)
  | none =>
  match matchKw ['r','a','n','g','e'] cs with
  | some r => some (some .rangeTok, r)
  | none =>
  match matchKw ['t','o'] cs with
  | some r => some (some .toTok, r)
  | none =>
  match cs.span isIdentChar with
  | (run@(_ :: _), rest) => some (some (.ident ⟨run⟩), rest)
  | _ =>
  match cs.span Char.isDigit with
  | (d1@(_ :: _), '.' :: afterDot) =>
    -- FLOAT = /\d+\.\d+/ ; if no digits follow the dot, fall through to INT
    (match afterDot.span Char.isDigit with
     | (d2@(_ :: _), rest) => some (some (.float ⟨d1 ++ '.' :: d2⟩), rest)
     | _ => some (some (.intTok ⟨d1⟩), '.' :: afterDot))
  | (d1@(_ :: _), rest) => some (some (.intTok ⟨d1⟩), rest)
  | _ =>
  match cs with
  | '"' :: body =>
    (match scanStr '"' body with
     | some (inner, rest) => some (some (.strTok ⟨inner⟩), rest)
     | none => some (some .dquote, body))
  | '\'' :: body =>
    (match scanStr '\'' body with
     | some (inner, rest) => some (some (.strTok ⟨inner⟩), rest)
     | none => none)
  | ',' :: rest => some (some .comma, rest)
  | '(' :: rest => some (some .lparen, rest)
  | ':' :: rest => some (some .colon, rest)
  | ')' :: rest => some (some .rparen, rest)
  | c :: rest => if c.isWhitespace then some (none, rest.dropWhile Char.isWhitespace) else none
  | [] => none

/-- Fueled tokenization loop; every successful step consumes at least one
character, so fuel `length + 1` always suffices. -/
def lexLoop : Nat → List Char → Option (List Tok)
  | _, [] => some []
  | 0, _ :: _ => none
  | Nat.succ fuel, cs =>
    match nextTok cs with
    | none => none
    | some (t?, rest) =>
      match lexLoop fuel rest with
      | none => none
      | some toks =>
        match t? with
        | none => some toks
        | some t => some (t :: toks)

/-- Tokenize a filter string (`getLexer` + exhausting the token stream);
`none` models a perplex tokenization error. -/
def lexTokens (s : String) : Option (List Tok) :=
  lexLoop (s.data.length + 1) s.data

/-! ## Predicate compiler

Embedding of `generateMatchFunc`: a `pratt` binding-power parser over the
token stream.  Rules registered by the source: prefix (`nud`) rules for
`IDENTIFIER` (bp 100), `STRING` (20), `INT` (5), `EXISTS` (10), `MISSING`
(10), `RANGE` (20); infix (`led`) rules for `:` (bp 100), `COMMA` (200),
`TO` (20); and an explicit binding power 0 for `)`.  A token with no
registered binding power never stops a parse loop, a token in prefix
position with no `nud` rule (such as `(`) is a parse error, and a token in
infix position with no `led` rule is a parse error. -/

/-- Parse-time exceptions: pratt parse errors (missing prefix/infix rule,
end of input in prefix position) and the `TypeError` thrown by destructuring
a non-iterable in `RANGE`'s rule.  `fuel` is an artifact of the fueled
embedding and is never reached with the fuel supplied by `runParse`. -/
inductive PErr where
  | eofNud
  | noNud (t : Tok)
  | noLed (t : Tok)
  | destructure
  | fuel
deriving DecidableEq

/-- Registered binding power of a token (`none` = no registered power,
which pratt treats as unbounded: the parse loop never stops on it). -/
def bpOf : Tok → Option Nat
  | .colon => some 100
  | .comma => some 200
  | .toTok => some 20
  | .rparen => some 0
  | .ident _ => some 100
  | .strTok _ => some 20
  | .intTok _ => some 5
  | .existsTok => some 10
  | .missingTok => some 10
  | .rangeTok => some 20
  | _ => none

/-- The parse loop stops before token `t` iff `t`'s binding power is at most
one of the numeric terminals (end of input always stops it). -/
def stopAt (t : Tok) (stops : List Nat) : Bool :=
  match bpOf t with
  | none => false
  | some b => stops.any (fun s => b ≤ s)

/-- `parseInt(s, 10)` on a token matched by `/\d+/`. -/
def parseDec (s : String) : Int :=
  Int.ofNat (s.data.foldl (fun n c => n * 10 + (c.toNat - 48)) 0)

/-- The `:` rule's result: if the right sub-expression is a list, membership
via `includes` (strict equality on elements); if it is a function, that
function; otherwise strict equality with the literal. -/
def colonApply (expr : FilterVal) : FilterVal :=
  match expr with
  | .list elems => .fn (fun obj => elems.any (fun l => jsEqLit obj l))
  | .fn f => .fn (fun obj => f obj)
  | e => .fn (fun obj => jsEqLit obj e)

/-- The `COMMA` rule's result: prepend the left operand, flattening a list
right operand. -/
def commaApply (left expr : FilterVal) : FilterVal :=
  match expr with
  | .list es => .list (left :: es)
  | e => .list [left, e]

/-- The `TO` rule's result: the pair `[left, expr]`. -/
def toApply (left expr : FilterVal) : FilterVal :=
  .list [left, expr]

/-- JS destructuring `const [start, stop] = expr` in `RANGE`'s rule:
arrays yield their first two elements (missing slots are `undefined`),
strings are iterable character-wise, anything else throws a `TypeError`. -/
def destructure2 : FilterVal → Except PErr (FilterVal × FilterVal)
  | .list [] => .ok (.undefined, .undefined)
  | .list [a] => .ok (a, .undefined)
  | .list (a :: b :: _) => .ok (a, b)
  | .str s =>
    match s.data with
    | [] => .ok (.undefined, .undefined)
    | [a] => .ok (.str ⟨[a]⟩, .undefined)
    | a :: b :: _ => .ok (.str ⟨[a]⟩, .str ⟨[b]⟩)
  | _ => .error .destructure

/-- The predicate produced by `range(...)`: `obj >= start && obj <= stop`. -/
def rangeFn (start stop : FilterVal) : JsVal → Bool :=
  fun obj => jsGe obj start && jsLe obj stop

mutual

/-- Fueled pratt `parse({terminals: stops})`: apply the prefix rule of the
first token, then run the infix loop.  `RANGE`'s prefix rule skips one token
unconditionally (`lexer.next()`), parses a full sub-expression and
destructures it into the inclusive range bounds. -/
def parseE : Nat → List Tok → List Nat → Except PErr (FilterVal × List Tok)
  | 0, _, _ => .error .fuel
  | Nat.succ fuel, toks, stops =>
    match toks with
    | [] => .error .eofNud
    | t :: rest =>
      match t with
      | .ident s => ledLoop fuel (.str s) rest stops
      | .strTok s => ledLoop fuel (.str s) rest stops
      | .intTok s => ledLoop fuel (.int (parseDec s)) rest stops
      | .existsTok => ledLoop fuel (.fn (fun v => !isUndefined v)) rest stops
      | .missingTok => ledLoop fuel (.fn (fun v => isUndefined v)) rest stops
      | .rangeTok =>
        match parseE fuel (rest.drop 1) [0] with
        | .error e => .error e
        | .ok (v, rest') =>
          match destructure2 v with
          | .error e => .error e
          | .ok (a, b) => ledLoop fuel (.fn (rangeFn a b)) rest' stops
      | t => .error (.noNud t)

/-- Fueled pratt infix loop: while the next token's binding power exceeds
every numeric terminal, consume it and apply its infix rule (`:` parses its
right side at power 99, `COMMA` at 199, `TO` at 19). -/
def ledLoop : Nat → FilterVal → List Tok → List Nat → Except PErr (FilterVal × List Tok)
  | 0, _, _, _ => .error .fuel
  | Nat.succ fuel, left, toks, stops =>
    match toks with
    | [] => .ok (left, [])
    | t :: rest =>
      if stopAt t stops then .ok (left, toks)
      else
        match t with
        | .colon =>
          match parseE fuel rest [99] with
          | .error e => .error e
          | .ok (expr, rest') => ledLoop fuel (colonApply expr) rest' stops
        | .comma =>
          match parseE fuel rest [199] with
          | .error e => .error e
          | .ok (expr, rest') => ledLoop fuel (commaApply left expr) rest' stops
        | .toTok =>
          match parseE fuel rest [19] with
          | .error e => .error e
          | .ok (expr, rest') => ledLoop fuel (toApply left expr) rest' stops
        | t => .error (.noLed t)

end

/-- Top-level `parser.parse()` with fuel ample for the token count (each
recursive call follows a consumed token or the single skipped parenthesis). -/
def runParse (toks : List Tok) : Except PErr (FilterVal × List Tok) :=
  parseE (4 * toks.length + 8) toks [0]

/-- Compile-time exceptions of `parseFilterExpression`: a perplex
tokenization error, a pratt parse error, or the module's own syntax error
thrown when the final parse result is not a function. -/
inductive CompileErr where
  | lexError
  | parseError (e : PErr)
  | syntaxError (msg : String)
deriving DecidableEq

/-- The message of the syntax error thrown by `generateMatchFunc`: the
template mentions the filter string only (the `column` computed on the line
above the `throw` is never interpolated). -/
def syntaxErrorMsg (filter : String) : String :=
  "Syntax error while parsing '" ++ filter ++ "'."

/-- A compiled match function: a predicate over resolved JS values. -/
abbrev MatchFunc := JsVal → Bool

/-- `generateMatchFunc`: tokenize the whole filter string, parse one
expression, and require the result to be a function (otherwise throw the
syntax error).  Trailing unconsumed tokens are ignored, as in the source. -/
def generateMatchFunc (filter : String) : Except CompileErr MatchFunc :=
  match lexTokens filter with
  | none => .error .lexError
  | some toks =>
    match runParse toks with
    | .error e => .error (.parseError e)
    | .ok (.fn f, _) => .ok f
    | .ok _ => .error (.syntaxError (syntaxErrorMsg filter))

/-! ## Product data model

The external `@commercetools/platform-sdk` shapes, restricted to the fields
this module reads: `masterData.current` / `masterData.staged` projections,
each with a master variant and an ordered variant list; variants with
optional `sku`, `key`, `attributes`, `prices` and `scopedPrice`. -/

/-- `{centAmount}` of a price `value`. -/
structure PriceValue where
  centAmount : Int

/-- An embedded price (`{value: {centAmount}}`). -/
structure Price where
  value : PriceValue

/-- A scoped price (`{value: {centAmount}}`). -/
structure ScopedPrice where
  value : PriceValue

/-- A variant attribute `{name, value}`. -/
structure Attribute where
  name : String
  value : JsVal

/-- A product variant; `none` models an absent (JS `undefined`) field. -/
structure ProductVariant where
  sku : Option String := none
  key : Option String := none
  attributes : Option (List Attribute) := none
  prices : Option (List Price) := none
  scopedPrice : Option ScopedPrice := none

/-- A product projection (`masterData.current` / `masterData.staged`). -/
structure ProductData where
  masterVariant : ProductVariant
  variants : List ProductVariant

/-- `masterData`, with optional projections. -/
structure MasterData where
  current : Option ProductData := none
  staged : Option ProductData := none

/-- A product. -/
structure Product where
  masterData : MasterData

/-- View an attribute as the JS object `{name, value}`. -/
def attrToJs (a : Attribute) : JsVal :=
  .obj [("name", .str a.name), ("value", a.value)]

/-- View a price as the JS object `{value: {centAmount}}`. -/
def priceToJs (pr : Price) : JsVal :=
  .obj [("value", .obj [("centAmount", .int pr.value.centAmount)])]

/-- View a scoped price as the JS object `{value: {centAmount}}`. -/
def scopedPriceToJs (sp : ScopedPrice) : JsVal :=
  .obj [("value", .obj [("centAmount", .int sp.value.centAmount)])]

/-- An optional field contributes to the JS object only when present. -/
def optField (name : String) : Option JsVal → List (String × JsVal)
  | none => []
  | some v => [(name, v)]

/-- View a variant as a JS object (absent fields are absent keys, so reading
them yields `undefined`, as in JS). -/
def variantToJs (v : ProductVariant) : JsVal :=
  .obj (optField "sku" (v.sku.map .str) ++
    optField "key" (v.key.map .str) ++
    optField "attributes" (v.attributes.map (fun as => .arr (as.map attrToJs))) ++
    optField "prices" (v.prices.map (fun ps => .arr (ps.map priceToJs))) ++
    optField "scopedPrice" (v.scopedPrice.map scopedPriceToJs))

/-! ## Path resolver -/

/-- First field of a JS object with the given key. -/
def lookupField (key : List Char) : List (String × JsVal) → JsVal
  | [] => .undefined
  | (k, v) :: rest => if k.data = key then v else lookupField key rest

/-- Is `key` the canonical decimal numeral of some index (JS array index
coercion: `arr["07"]` is not an element access)? -/
def canonicalIndex (key : List Char) : Option Nat :=
  match key with
  | [] => none
  | ['0'] => some 0
  | c :: _ =>
    if c == '0' then none
    else if key.all Char.isDigit then
      some (key.foldl (fun n d => n * 10 + (d.toNat - 48)) 0)
    else none

/-- JS bracket indexing `val[part]` for the value shapes reachable here:
objects by key, arrays by canonical index (plus `length`), strings by
canonical index (plus `length`), numbers have no own properties, and
indexing into `undefined` throws a `TypeError`. -/
def indexJs (v : JsVal) (key : List Char) : Except RErr JsVal :=
  match v with
  | .undefined => .error .typeError
  | .obj fields => .ok (lookupField key fields)
  | .arr elems =>
    if key = "length".data then .ok (.int elems.length)
    else
      .ok (match canonicalIndex key with
        | some i => (elems.get? i).getD .undefined
        | none => .undefined)
  | .str s =>
    if key = "length".data then .ok (.int s.data.length)
    else
      .ok (match canonicalIndex key with
        | some i =>
          match s.data.get? i with
          | some c => .str ⟨[c]⟩
          | none => .undefined
        | none => .undefined)
  | .int _ => .ok .undefined

/-- Walk a list of path segments left to right with `indexJs`. -/
def walkJs (v : JsVal) : List (List Char) → Except RErr JsVal
  | [] => .ok v
  | k :: ks =>
    match indexJs v k with
    | .error e => .error e
    | .ok u => walkJs u ks

/-- `resolveValue`: return the root unchanged when `path` is `undefined`;
otherwise split the path on `.` and index through every segment (an empty
string path splits into the single segment `""`). -/
def resolveValue (obj : JsVal) (path : Option String) : Except RErr JsVal :=
  match path with
  | none => .ok obj
  | some p => walkJs obj (jsSplit '.' p.data)

/-! ## Filter dispatcher and the four families -/

/-- A compiled product filter `apply(product, markMatchingVariant)`.  The
boolean result is modelled; the in-place `isMatchingVariant` tag written on a
match when `markMatchingVariant` is true is a side effect on caller-owned
data that no code in this module ever reads, and is not modelled. -/
abbrev ProductFilter := Product → Bool → Except RErr Bool

/-- The projection selected by the `staged` flag. -/
def selectedData (p : Product) (staged : Bool) : Option ProductData :=
  if staged then p.masterData.staged else p.masterData.current

/-- `getVariants`: `[masterVariant, ...variants]` of the selected projection;
when the projection is absent, spreading its `variants` sequence throws a
`TypeError`. -/
def getVariants (p : Product) (staged : Bool) : Except RErr (List ProductVariant) :=
  match selectedData p staged with
  | none => .error .typeError
  | some d => .ok (d.masterVariant :: d.variants)

/-- Loop of `filterVariant`: resolve the path against the first variant and
return the predicate's verdict; later variants are never reached. -/
def variantLoop (f : MatchFunc) (path : Option String) :
    List ProductVariant → Except RErr Bool
  | [] => .ok false
  | v :: _ =>
    match resolveValue (variantToJs v) path with
    | .error e => .error e
    | .ok value => .ok (f value)

/-- `filterVariant` (the `variants.sku` / `variants.key` family): the path is
the segment after `variants.` (`source.split('.', 2)[1]`). -/
def filterVariant (source : String) (staged : Bool) (f : MatchFunc) : ProductFilter :=
  fun p _mark =>
    match getVariants p staged with
    | .error e => .error e
    | .ok variants =>
      variantLoop f (((jsSplit '.' source.data).get? 1).map (fun cs => (⟨cs⟩ : String)))
        variants

/-- First attribute of the given name (`none` both when the name is absent
and when the requested name is itself `undefined`). -/
def findAttr (attrs : List Attribute) (attrName : Option String) : Option Attribute :=
  attrs.find? (fun a =>
    match attrName with
    | some n => a.name == n
    | none => false)

/-- Loop of `filterAttribute`: skip variants without an `attributes` field
and variants whose attributes do not include the requested name; on the
first variant carrying the name, resolve the sub-path against the
attribute's value and return the predicate's verdict. -/
def attrLoop (f : MatchFunc) (attrName path : Option String) :
    List ProductVariant → Except RErr Bool
  | [] => .ok false
  | v :: rest =>
    match v.attributes with
    | none => attrLoop f attrName path rest
    | some attrs =>
      match findAttr attrs attrName with
      | none => attrLoop f attrName path rest
      | some attr =>
        match resolveValue attr.value path with
        | .error e => .error e
        | .ok value => .ok (f value)

/-- `filterAttribute` (the `variants.attributes` family): attribute name and
sub-path come from `source.split('.', 4)[2]` and `[3]`. -/
def filterAttribute (source : String) (staged : Bool) (f : MatchFunc) : ProductFilter :=
  fun p _mark =>
    match getVariants p staged with
    | .error e => .error e
    | .ok variants =>
      attrLoop f (((jsSplit '.' source.data).get? 2).map (fun cs => (⟨cs⟩ : String)))
        (((jsSplit '.' source.data).get? 3).map (fun cs => (⟨cs⟩ : String)))
        variants

/-- Loop of `filterPrice`: skip variants without a `prices` field; on the
first variant with one, test `prices[0].value.centAmount` — reading `.value`
of `prices[0]` throws a `TypeError` when the list is present but empty. -/
def priceLoop (f : MatchFunc) : List ProductVariant → Except RErr Bool
  | [] => .ok false
  | v :: rest =>
    match v.prices with
    | none => priceLoop f rest
    | some [] => .error .typeError
    | some (pr :: _) => .ok (f (.int pr.value.centAmount))

/-- `filterPrice` (the `variants.price` family); the source sub-path is
ignored — only the first price's `value.centAmount` is ever tested. -/
def filterPrice (_source : String) (staged : Bool) (f : MatchFunc) : ProductFilter :=
  fun p _mark =>
    match getVariants p staged with
    | .error e => .error e
    | .ok variants => priceLoop f variants

/-- `variant.scopedPrice?.value.centAmount`. -/
def scopedPriceValue (v : ProductVariant) : JsVal :=
  match v.scopedPrice with
  | none => .undefined
  | some sp => .int sp.value.centAmount

/-- Loop of `filterScopedPrice`: test the first variant's scoped price cent
amount; later variants are never reached. -/
def scopedLoop (f : MatchFunc) : List ProductVariant → Except RErr Bool
  | [] => .ok false
  | v :: _ => .ok (f (scopedPriceValue v))

/-- Message of the error thrown for an unsupported scoped-price sub-path. -/
def scopedPriceMsg : String :=
  "Only scopedPrice.value.centAmount is currently supported in the mock"

/-- `filterScopedPrice` (the `variants.scopedPrice` family): the source check
sits inside the returned closure, so a wrong sub-path throws on application,
before `getVariants` is consulted. -/
def filterScopedPrice (source : String) (staged : Bool) (f : MatchFunc) : ProductFilter :=
  fun p _mark =>
    if source = "variants.scopedPrice.value.centAmount" then
      match getVariants p staged with
      | .error e => .error e
      | .ok variants => scopedLoop f variants
    else
      .error (.unsupported scopedPriceMsg)

/-- The text before the first `:` (`filter.split(':', 2)[0]`). -/
def sourceOf (filter : String) : String :=
  match jsSplit ':' filter.data with
  | [] => filter
  | cs :: _ => ⟨cs⟩

/-- Family dispatch of `parseFilterExpression` on the source prefix; any
other source yields the constant-false predicate. -/
def dispatchFilter (source : String) (staged : Bool) (exprFunc : MatchFunc) :
    ProductFilter :=
  if jsStartsWith source "variants.attributes" then
    filterAttribute source staged exprFunc
  else if jsStartsWith source "variants.price" then
    filterPrice source staged exprFunc
  else if jsStartsWith source "variants.scopedPrice" then
    filterScopedPrice source staged exprFunc
  else if jsStartsWith source "variants.sku" || jsStartsWith source "variants.key" then
    filterVariant source staged exprFunc
  else
    fun _p _mark => .ok false

/-- `parseFilterExpression`: compile the whole filter string to a match
function (this can throw), then dispatch on the source prefix. -/
def parseFilterExpression (filter : String) (staged : Bool) :
    Except CompileErr ProductFilter :=
  match generateMatchFunc filter with
  | .error e => .error e
  | .ok exprFunc => .ok (dispatchFilter (sourceOf filter) staged exprFunc)

/-- Compile a filter and apply it to one product (used to state claims about
end-to-end behavior). -/
def applyFilter (filter : String) (staged : Bool) (p : Product) (mark : Bool) :
    Except CompileErr (Except RErr Bool) :=
  match parseFilterExpression filter staged with
  | .error e => .error e
  | .ok f => .ok (f p mark)

/-- Compile a filter and apply the raw match function to one value. -/
def applyMatch (filter : String) (v : JsVal) : Except CompileErr Bool :=
  match generateMatchFunc filter with
  | .error e => .error e
  | .ok f => .ok (f v)

/-- Is an `Except` a success? -/
def exOk {ε α : Type} : Except ε α → Bool
  | .ok _ => true
  | .error _ => false

/-! ## Concrete fixtures used by the theorems below -/

/-- A product with the given master variant and further variants in its
`current` projection (and no `staged` projection). -/
def oneVariantProduct (mv : ProductVariant) (rest : List ProductVariant) : Product :=
  { masterData := { current := some { masterVariant := mv, variants := rest } } }

/-- A variant whose only field is a single `color` attribute. -/
def colorVariant (val : JsVal) : ProductVariant :=
  { attributes := some [{ name := "color", value := val }] }

/-- A variant whose only field is a one-price list with the given
`centAmount`. -/
def priceVariant (c : Int) : ProductVariant :=
  { prices := some [{ value := { centAmount := c } }] }

/-- A product with neither a `current` nor a `staged` projection. -/
def noProjections : Product :=
  { masterData := {} }

end ProjectionSearchFilter

namespace ProjectionSearchFilter

/-! ## Helper lemmas -/

/-- Two prefixes of the same list are comparable. -/
theorem isLeadOf_comparable : ∀ (s p q : List Char),
    isLeadOf p s = true → isLeadOf q s = true →
    (isLeadOf p q || isLeadOf q p) = true := by
  intro s
  induction s with
  | nil =>
    intro p q hp hq
    cases p with
    | nil => simp [isLeadOf]
    | cons a as => simp [isLeadOf] at hp
  | cons c s ih =>
    intro p q hp hq
    cases p with
    | nil => simp [isLeadOf]
    | cons a as =>
      cases q with
      | nil => simp [isLeadOf]
      | cons b bs =>
        simp only [isLeadOf, Bool.and_eq_true, beq_iff_eq] at hp hq
        obtain ⟨rfl, hp⟩ := hp
        obtain ⟨rfl, hq⟩ := hq
        simpa [isLeadOf] using ih as bs hp hq

/-- `jsSplit` never returns the empty list. -/
theorem jsSplit_ne_nil (sep : Char) : ∀ cs : List Char, jsSplit sep cs ≠ [] := by
  intro cs
  cases cs with
  | nil => simp [jsSplit]
  | cons c rest =>
    simp only [jsSplit]
    cases jsSplit sep rest with
    | nil =>
      by_cases h : c = sep <;> simp [h]
    | cons h t =>
      by_cases hc : c = sep <;> simp [hc]

/-- `jsSplit` always yields at least one part. -/
theorem jsSplit_shape (sep : Char) (cs : List Char) :
    ∃ h t, jsSplit sep cs = h :: t := by
  cases hx : jsSplit sep cs with
  | nil => exact absurd hx (jsSplit_ne_nil sep cs)
  | cons h t => exact ⟨h, t, rfl⟩

/-- One unfolding step of `jsSplit` on a cons. -/
theorem jsSplit_cons (sep c : Char) (cs : List Char) (h : List Char)
    (t : List (List Char)) (hx : jsSplit sep cs = h :: t) :
    jsSplit sep (c :: cs) = if c = sep then [] :: h :: t else (c :: h) :: t := by
  simp only [jsSplit, hx]

/-- Splitting a list with a separator spliced in splits at that separator. -/
theorem jsSplit_append (sep : Char) : ∀ (as bs : List Char),
    jsSplit sep (as ++ sep :: bs) = jsSplit sep as ++ jsSplit sep bs := by
  intro as bs
  induction as with
  | nil =>
    obtain ⟨h, t, hht⟩ := jsSplit_shape sep bs
    simp [jsSplit, hht]
  | cons a as ih =>
    obtain ⟨h, t, hht⟩ := jsSplit_shape sep as
    have hsplice : jsSplit sep (as ++ sep :: bs) = h :: (t ++ jsSplit sep bs) := by
      rw [ih, hht]; rfl
    rw [List.cons_append, jsSplit_cons sep a _ _ _ hsplice, jsSplit_cons sep a _ _ _ hht]
    by_cases ha : a = sep <;> simp [ha]

/-- Walking a concatenation of segment lists walks them in sequence. -/
theorem walkJs_append : ∀ (ks1 ks2 : List (List Char)) (v : JsVal),
    walkJs v (ks1 ++ ks2) =
      match walkJs v ks1 with
      | .error e => .error e
      | .ok u => walkJs u ks2 := by
  intro ks1
  induction ks1 with
  | nil => intro ks2 v; rfl
  | cons k ks ih =>
    intro ks2 v
    simp only [List.cons_append, walkJs]
    cases indexJs v k with
    | error e => rfl
    | ok u => exact ih ks2 u

/-- `String.data` distributes over append. -/
theorem strDataAppend : ∀ (s t : String), (s ++ t).data = s.data ++ t.data :=
  fun ⟨_⟩ ⟨_⟩ => rfl

/-- If `s` starts with `q`, and `p` and `q` are incomparable as prefixes,
then `s` does not start with `p`. -/
theorem startsWith_excl (s p q : String)
    (hcmp : (isLeadOf p.data q.data || isLeadOf q.data p.data) = false)
    (hq : jsStartsWith s q = true) : jsStartsWith s p = false := by
  simp only [jsStartsWith] at hq ⊢
  cases hx : isLeadOf p.data s.data with
  | false => rfl
  | true =>
    have hc := isLeadOf_comparable s.data p.data q.data hx hq
    rw [hcmp] at hc
    exact Bool.noConfusion hc

/-! ## Claims -/

/-- Claim C1, counterexample.  The claim says that for the attribute family,
absence of an attribute of the requested name on the first candidate variant
returns false even if a later variant carries a matching attribute.  On this
product the master variant has an (empty) attribute list without a `color`
attribute, the second variant has `color = "red"`, and the filter
nevertheless matches: evaluation moved past the first variant. -/
theorem c1_counterexample :
    applyFilter "variants.attributes.color:\"red\"" false
      (oneVariantProduct { attributes := some [] } [colorVariant (.str "red")])
      false = .ok (.ok true) := by
  rfl

/-- Claim C1, amended.  Evaluation tests exactly one variant, but which one
depends on the family: `variants.sku`/`variants.key` (and scoped price) test
the first candidate variant; the attribute family skips variants that do not
carry an attribute of the requested name and tests the first one that does;
the price family skips variants whose `prices` field is absent and tests the
first variant that has one (throwing a `TypeError` if that list is empty).
In every family, once a variant is tested the verdict is final: no later
variant is inspected. -/
theorem c1_theorem :
    (∀ (f : MatchFunc) (path : Option String) (v : ProductVariant)
        (rest : List ProductVariant),
      variantLoop f path (v :: rest) =
        match resolveValue (variantToJs v) path with
        | .error e => .error e
        | .ok value => .ok (f value))
  ∧ (∀ (f : MatchFunc) (an path : Option String) (v : ProductVariant)
        (rest : List ProductVariant),
      attrLoop f an path (v :: rest) =
        match v.attributes with
        | none => attrLoop f an path rest
        | some attrs =>
          match findAttr attrs an with
          | none => attrLoop f an path rest
          | some attr =>
            match resolveValue attr.value path with
            | .error e => .error e
            | .ok value => .ok (f value))
  ∧ (∀ (f : MatchFunc) (v : ProductVariant) (rest : List ProductVariant),
      priceLoop f (v :: rest) =
        match v.prices with
        | none => priceLoop f rest
        | some [] => .error RErr.typeError
        | some (pr :: _) => .ok (f (.int pr.value.centAmount)))
  ∧ (∀ (f : MatchFunc) (v : ProductVariant) (rest : List ProductVariant),
      scopedLoop f (v :: rest) = .ok (f (scopedPriceValue v)))
  ∧ (∀ (source : String) (f : MatchFunc) (mark : Bool) (d : ProductData)
        (stg : Option ProductData),
      filterAttribute source false f ⟨⟨some d, stg⟩⟩ mark =
        attrLoop f (((jsSplit '.' source.data).get? 2).map (fun cs => (⟨cs⟩ : String)))
          (((jsSplit '.' source.data).get? 3).map (fun cs => (⟨cs⟩ : String)))
          (d.masterVariant :: d.variants)) :=
  ⟨fun _ _ _ _ => rfl, fun _ _ _ _ _ => rfl, fun _ _ _ => rfl, fun _ _ _ => rfl,
    fun _ _ _ _ _ => rfl⟩

/-- Claim C2, counterexample.  The claim says compilation of
`variants.attributes.color:("red","blue")` succeeds; it does not: `(` has no
prefix rule in the compiler, so the parse fails and `parseFilterExpression`
throws instead of returning a predicate. -/
theorem c2_counterexample :
    exOk (parseFilterExpression "variants.attributes.color:(\"red\",\"blue\")" false)
      = false := by
  rfl

/-- Claim C2, amended.  The parenthesis-free comma list
`variants.attributes.color:"red","blue"` compiles, and the resulting
predicate matches a first variant whose `color` attribute is `"red"` or
`"blue"` and rejects `"green"`. -/
theorem c2_theorem :
    exOk (parseFilterExpression "variants.attributes.color:\"red\",\"blue\"" false)
      = true
  ∧ applyFilter "variants.attributes.color:\"red\",\"blue\"" false
      (oneVariantProduct (colorVariant (.str "red")) []) false = .ok (.ok true)
  ∧ applyFilter "variants.attributes.color:\"red\",\"blue\"" false
      (oneVariantProduct (colorVariant (.str "blue")) []) false = .ok (.ok true)
  ∧ applyFilter "variants.attributes.color:\"red\",\"blue\"" false
      (oneVariantProduct (colorVariant (.str "green")) []) false = .ok (.ok false) :=
  ⟨rfl, rfl, rfl, rfl⟩

/-- Claim C5.  The `IDENTIFIER` pattern is `/[-_\.a-z]+/i`, which does not
include digits (although the keyword lookahead class `[-_a-z0-9]` does), so
`ABC123` tokenizes as an `IDENTIFIER` followed by an `INT`, not as one
`IDENTIFIER`; consequently a filter whose attribute name contains a digit
fails to compile. -/
theorem c5_theorem :
    lexTokens "ABC123" = some [.ident "ABC", .intTok "123"]
  ∧ lexTokens "ABC123" ≠ some [.ident "ABC123"]
  ∧ exOk (generateMatchFunc "variants.attributes.num1:4") = false :=
  ⟨rfl, by decide, rfl⟩

/-- Claim C8, counterexample.  The claim says an empty-string path returns
the root unchanged; instead `"".split('.')` is `[""]`, so the resolver
indexes the root with the key `""` and returns `undefined` here. -/
theorem c8_counterexample :
    resolveValue (JsVal.obj [("a", .int 1)]) (some "") = .ok .undefined
  ∧ JsVal.obj [("a", .int 1)] ≠ JsVal.undefined :=
  ⟨rfl, fun h => JsVal.noConfusion h⟩

/-- Claim C8, amended.  The resolver returns the root unchanged only when
the path is `undefined`; an empty-string path indexes the root with the key
`""` (yielding `undefined` on this root); and on a non-empty dotted path it
indexes through the dot-separated segments left to right, equivalently
resolving `a` then `b` for the path `a ++ "." ++ b`. -/
theorem c8_theorem :
    (∀ v : JsVal, resolveValue v none = .ok v)
  ∧ resolveValue (JsVal.obj [("a", .int 1)]) (some "") = .ok .undefined
  ∧ (∀ (v : JsVal) (a b : String),
      resolveValue v (some (a ++ "." ++ b)) =
        match resolveValue v (some a) with
        | .error e => .error e
        | .ok u => resolveValue u (some b)) := by
  refine ⟨fun _ => rfl, rfl, ?_⟩
  intro v a b
  have hdata : (a ++ "." ++ b).data = a.data ++ '.' :: b.data := by
    rw [strDataAppend, strDataAppend]
    simp
  show walkJs v (jsSplit '.' (a ++ "." ++ b).data) = _
  rw [hdata, jsSplit_append, walkJs_append]
  rfl

/-- Claim C9.  The syntax error thrown when the final parse result is not a
function carries the message `Syntax error while parsing '<filter>'.`: it
identifies the filter string but contains no digit at all, hence not the
column (12 for this input) that the code computes but never interpolates. -/
theorem c9_theorem :
    generateMatchFunc "variants.sku"
      = .error (.syntaxError (syntaxErrorMsg "variants.sku"))
  ∧ syntaxErrorMsg "variants.sku" = "Syntax error while parsing 'variants.sku'."
  ∧ (syntaxErrorMsg "variants.sku").data.all (fun c => !c.isDigit) = true :=
  ⟨rfl, rfl, by decide⟩

/-- Claim C10, counterexample.  The claim says every compiled family filter
throws a `TypeError` on a product whose selected projection is absent; but a
scoped-price filter with an unsupported sub-path compiles and then throws
its own `Error` (not the `TypeError` from `getVariants`) on such a product,
because its source check precedes the variant extraction. -/
theorem c10_counterexample :
    applyFilter "variants.scopedPrice.foo:1" true noProjections false
      = .ok (.error (.unsupported scopedPriceMsg))
  ∧ RErr.unsupported scopedPriceMsg ≠ RErr.typeError :=
  ⟨rfl, by decide⟩

/-- Claim C10, amended.  When the projection selected by the `staged` flag
is absent, `getVariants` throws a `TypeError` (spreading the absent
projection's variants), and so does every compiled family filter that
reaches variant extraction: the sku/key, attribute and price families
unconditionally, the scoped-price family when its source is exactly
`variants.scopedPrice.value.centAmount`. -/
theorem c10_theorem :
    ∀ (staged : Bool) (f : MatchFunc) (p : Product),
      selectedData p staged = none →
      getVariants p staged = .error .typeError
      ∧ (∀ (source : String) (mark : Bool),
          filterVariant source staged f p mark = .error .typeError)
      ∧ (∀ (source : String) (mark : Bool),
          filterAttribute source staged f p mark = .error .typeError)
      ∧ (∀ (source : String) (mark : Bool),
          filterPrice source staged f p mark = .error .typeError)
      ∧ (∀ mark : Bool,
          filterScopedPrice "variants.scopedPrice.value.centAmount" staged f p mark
            = .error .typeError) := by
  intro staged f p hsel
  have hg : getVariants p staged = .error .typeError := by
    simp [getVariants, hsel]
  refine ⟨hg, fun source mark => ?_, fun source mark => ?_, fun source mark => ?_,
    fun mark => ?_⟩
  · simp [filterVariant, hg]
  · simp [filterAttribute, hg]
  · simp [filterPrice, hg]
  · simp [filterScopedPrice, hg]

/-- Claim C10, witness: the amended statement at a concrete product with
neither projection. -/
theorem c10_witness :
    getVariants noProjections true = .error .typeError
  ∧ filterVariant "variants.sku" true (fun _ => true) noProjections false
      = .error .typeError
  ∧ filterAttribute "variants.attributes.color" true (fun _ => true) noProjections
      false = .error .typeError
  ∧ filterPrice "variants.price.centAmount" true (fun _ => true) noProjections
      false = .error .typeError
  ∧ filterScopedPrice "variants.scopedPrice.value.centAmount" true (fun _ => true)
      noProjections false = .error .typeError := by
  have h := c10_theorem true (fun _ => true) noProjections rfl
  exact ⟨h.1, h.2.1 _ _, h.2.2.1 _ _, h.2.2.2.1 _ _, h.2.2.2.2 _⟩

/-- Claim C3, counterexample.  The claim says a filter whose source starts
with `variants.scopedPrice` but is not exactly
`variants.scopedPrice.value.centAmount` is rejected at compile time and
`parseFilterExpression` never returns a predicate for it; in fact the
spec's own example compiles fine and a predicate is returned. -/
theorem c3_counterexample :
    exOk (parseFilterExpression "variants.scopedPrice.price:range(1 to 2)" false)
      = true := by
  rfl

/-- Claim C3, amended.  The unsupported-sub-path check sits inside the
returned closure: compilation succeeds, and the descriptive error is thrown
on every application of the returned predicate to a product, before any
variant is inspected. -/
theorem c3_theorem :
    ∀ (filter : String) (staged : Bool) (f : ProductFilter) (p : Product)
      (mark : Bool),
      parseFilterExpression filter staged = .ok f →
      jsStartsWith (sourceOf filter) "variants.scopedPrice" = true →
      sourceOf filter ≠ "variants.scopedPrice.value.centAmount" →
      f p mark = .error (.unsupported scopedPriceMsg) := by
  intro filter staged f p mark hok hpre hne
  have hA : jsStartsWith (sourceOf filter) "variants.attributes" = false :=
    startsWith_excl _ _ _ (by decide) hpre
  have hP : jsStartsWith (sourceOf filter) "variants.price" = false :=
    startsWith_excl _ _ _ (by decide) hpre
  unfold parseFilterExpression at hok
  cases hg : generateMatchFunc filter with
  | error e => rw [hg] at hok; exact Except.noConfusion hok
  | ok g =>
    rw [hg] at hok
    have hf : f = dispatchFilter (sourceOf filter) staged g := by
      injection hok with h
      exact h.symm
    subst hf
    unfold dispatchFilter
    rw [hA, hP, hpre]
    simp only [Bool.false_eq_true, if_false, if_true]
    unfold filterScopedPrice
    rw [if_neg hne]

/-- Claim C3, witness: the amended statement at the spec's own example
filter and a concrete product. -/
theorem c3_witness :
    applyFilter "variants.scopedPrice.price:range(1 to 2)" false
      (oneVariantProduct {} []) false = .ok (.error (.unsupported scopedPriceMsg)) := by
  have h := c3_theorem "variants.scopedPrice.price:range(1 to 2)" false
      (dispatchFilter (sourceOf "variants.scopedPrice.price:range(1 to 2)") false
        (fun obj => rangeFn (.int 1) (.int 2) obj))
      (oneVariantProduct {} []) false rfl rfl (by decide)
  calc applyFilter "variants.scopedPrice.price:range(1 to 2)" false
        (oneVariantProduct {} []) false
      = .ok (dispatchFilter (sourceOf "variants.scopedPrice.price:range(1 to 2)") false
          (fun obj => rangeFn (.int 1) (.int 2) obj) (oneVariantProduct {} []) false) :=
        rfl
    _ = .ok (.error (.unsupported scopedPriceMsg)) := by rw [h]

/-- Claim C4, counterexample.  The claim says every filter string whose
source matches none of the four families compiles, without error, to a
constant-false predicate; but compilation happens before the dispatch, so a
non-family filter such as `foo` (whose parse result is a bare literal)
throws a syntax error instead. -/
theorem c4_counterexample :
    exOk (parseFilterExpression "foo" false) = false
  ∧ jsStartsWith (sourceOf "foo") "variants.attributes" = false
  ∧ jsStartsWith (sourceOf "foo") "variants.price" = false
  ∧ jsStartsWith (sourceOf "foo") "variants.scopedPrice" = false
  ∧ jsStartsWith (sourceOf "foo") "variants.sku" = false
  ∧ jsStartsWith (sourceOf "foo") "variants.key" = false :=
  ⟨rfl, rfl, rfl, rfl, rfl, rfl⟩

/-- Claim C4, amended.  Whenever compilation of the match function succeeds
and the source matches none of the four family prefixes,
`parseFilterExpression` returns a predicate that is false on every product
and every `markMatchingVariant` value. -/
theorem c4_theorem :
    ∀ (filter : String) (staged : Bool) (f : ProductFilter),
      parseFilterExpression filter staged = .ok f →
      jsStartsWith (sourceOf filter) "variants.attributes" = false →
      jsStartsWith (sourceOf filter) "variants.price" = false →
      jsStartsWith (sourceOf filter) "variants.scopedPrice" = false →
      jsStartsWith (sourceOf filter) "variants.sku" = false →
      jsStartsWith (sourceOf filter) "variants.key" = false →
      ∀ (p : Product) (mark : Bool), f p mark = .ok false := by
  intro filter staged f hok hA hP hS hSku hKey p mark
  unfold parseFilterExpression at hok
  cases hg : generateMatchFunc filter with
  | error e => rw [hg] at hok; exact Except.noConfusion hok
  | ok g =>
    rw [hg] at hok
    have hf : f = dispatchFilter (sourceOf filter) staged g := by
      injection hok with h
      exact h.symm
    subst hf
    unfold dispatchFilter
    rw [hA, hP, hS, hSku, hKey]
    simp only [Bool.false_eq_true, Bool.or_false, if_false]

/-- Claim C4, witness: the amended statement at the non-family filter
`foo:bar`, which does compile. -/
theorem c4_witness :
    applyFilter "foo:bar" false (oneVariantProduct {} []) false = .ok (.ok false) := by
  have h := c4_theorem "foo:bar" false
      (dispatchFilter (sourceOf "foo:bar") false (fun obj => jsEqLit obj (.str "bar")))
      rfl rfl rfl rfl rfl rfl (oneVariantProduct {} []) false
  calc applyFilter "foo:bar" false (oneVariantProduct {} []) false
      = .ok (dispatchFilter (sourceOf "foo:bar") false
          (fun obj => jsEqLit obj (.str "bar")) (oneVariantProduct {} []) false) := rfl
    _ = .ok (.ok false) := by rw [h]

/-- Claim C6.  The colon rule parses its right side at power 99 (embedded as
the `[99]` terminal in `ledLoop`) and dispatches on the parsed
sub-expression: a list yields membership by strict equality, a function
yields itself, and any literal yields strict equality with that literal, so
for every identifier token `P` and literal token `V` the token stream of
`P:V` compiles to the predicate true exactly on values strictly equal to
`V`; end to end, `variants.sku:"ABC123"` accepts the value `"ABC123"` and
rejects `"AB"`. -/
theorem c6_theorem :
    (∀ (p v : String),
      runParse [.ident p, .colon, .strTok v] =
        .ok (.fn (fun obj => jsEqLit obj (.str v)), []))
  ∧ (∀ (p n : String),
      runParse [.ident p, .colon, .intTok n] =
        .ok (.fn (fun obj => jsEqLit obj (.int (parseDec n))), []))
  ∧ (∀ (p a b : String),
      runParse [.ident p, .colon, .strTok a, .comma, .strTok b] =
        .ok (.fn (fun obj =>
          [FilterVal.str a, FilterVal.str b].any (fun l => jsEqLit obj l)), []))
  ∧ (∀ p : String,
      runParse [.ident p, .colon, .missingTok] =
        .ok (.fn (fun v => isUndefined v), []))
  ∧ applyMatch "variants.sku:\"ABC123\"" (.str "ABC123") = .ok true
  ∧ applyMatch "variants.sku:\"ABC123\"" (.str "AB") = .ok false :=
  ⟨fun _ _ => rfl, fun _ _ => rfl, fun _ _ _ => rfl, fun _ => rfl, rfl, rfl⟩

/-- Claim C7.  The `range(A to B)` predicate is inclusive at both ends, and
for the price family the compiled filter
`variants.price.centAmount:range(100 to 500)` returns exactly whether the
first candidate variant's first price `centAmount` lies in `[100, 500]`,
whenever that variant has a price list. -/
theorem c7_theorem :
    (∀ a b v : Int,
      rangeFn (.int a) (.int b) (JsVal.int v) = decide (a ≤ v ∧ v ≤ b))
  ∧ (∀ (staged mark : Bool) (p : Product) (d : ProductData) (pr : Price)
        (prs : List Price),
      selectedData p staged = some d →
      d.masterVariant.prices = some (pr :: prs) →
      applyFilter "variants.price.centAmount:range(100 to 500)" staged p mark =
        .ok (.ok (decide (100 ≤ pr.value.centAmount ∧ pr.value.centAmount ≤ 500)))) := by
  have hrange : ∀ a b v : Int,
      rangeFn (.int a) (.int b) (JsVal.int v) = decide (a ≤ v ∧ v ≤ b) := by
    intro a b v
    simp only [rangeFn, jsGe, jsLe]
    by_cases h1 : a ≤ v <;> by_cases h2 : v ≤ b <;> simp [h1, h2]
  refine ⟨hrange, ?_⟩
  intro staged mark p d pr prs hsel hp
  have hgv : getVariants p staged = .ok (d.masterVariant :: d.variants) := by
    simp [getVariants, hsel]
  calc applyFilter "variants.price.centAmount:range(100 to 500)" staged p mark
      = .ok (filterPrice (sourceOf "variants.price.centAmount:range(100 to 500)")
          staged (fun obj => rangeFn (.int 100) (.int 500) obj) p mark) := rfl
    _ = .ok (.ok (decide (100 ≤ pr.value.centAmount ∧ pr.value.centAmount ≤ 500))) := by
        simp only [filterPrice, hgv, priceLoop, hp]
        rw [hrange]

/-- Claim C7, witness: the price-family statement at a concrete product
whose first variant's first price is exactly 100 (the lower bound passes). -/
theorem c7_witness :
    applyFilter "variants.price.centAmount:range(100 to 500)" false
      (oneVariantProduct (priceVariant 100) []) false = .ok (.ok true) := by
  have h := c7_theorem.2 false false (oneVariantProduct (priceVariant 100) [])
      { masterVariant := priceVariant 100, variants := [] }
      { value := { centAmount := 100 } } [] rfl rfl
  exact h

end ProjectionSearchFilter
